import Mathlib

/-!
Shallow embedding of the BTF type-record view layer of
`src/libbpf-rs/src/btf/types.rs`.

The raw trailing payload of a record is modelled as the list of the 32-bit
words that follow the 12-byte header in memory; every `try_from` conversion,
member decoder and accessor below is translated from the Rust source.  All
functions are total and pure, which reflects that the Rust code neither
panics nor has side effects on these paths (the `unsafe` blocks only read
memory whose validity the owning store guarantees).
-/

set_option linter.unusedVariables false

/-- Closed set of the 20 BTF kind tags (from `super::BtfKind`). -/
inductive BtfKind where
  | Void
  | Int
  | Ptr
  | Array
  | Struct
  | Union
  | Enum
  | Fwd
  | Typedef
  | Volatile
  | Const
  | Restrict
  | Func
  | FuncProto
  | Var
  | DataSec
  | Float
  | DeclTag
  | TypeTag
  | Enum64
deriving DecidableEq

/-- Modelled from the spec: the generic record view `BtfType` lives outside
`src/` (only its accessors are consumed here, per spec section 6).  It carries
the store-decoded header accessors `kind`, `kind_flag`, `vlen`, the raw header
fields, the string-table lookup `name_at` and the record's trailing payload as
a list of 32-bit words. -/
structure BtfType where
  kind : BtfKind
  kind_flag : Bool
  vlen : Nat
  name_off : Nat
  size_or_type : Nat
  data : List Nat
  name_at : Nat → Option String

/-- Type ids are opaque integer handles. -/
abbrev TypeId := Nat

/-- Reading the i-th 32-bit word of a trailing region.  An out-of-range read
would be a read of memory the store never hands out; it is defaulted to 0 and
never exercised by the claims, which assume well-formed records. -/
def readU32 (data : List Nat) (i : Nat) : Nat :=
  (data[i]?).getD 0

/-- Reinterpreting a raw 32-bit word as a signed `i32` (for `__s32` fields). -/
def toI32 (w : Nat) : Int :=
  if w < 2 ^ 31 then (w : Int) else (w : Int) - 2 ^ 32

/-- Raw `libbpf_sys::btf_member` (three 32-bit words). -/
structure btf_member where
  name_off : Nat
  type_ : Nat
  offset : Nat
deriving DecidableEq

/-- Reading the i-th `btf_member` from a trailing region. -/
def btf_member.read (data : List Nat) (i : Nat) : btf_member :=
  { name_off := readU32 data (3 * i)
    type_ := readU32 data (3 * i + 1)
    offset := readU32 data (3 * i + 2) }

/-- Raw `libbpf_sys::btf_enum` (two 32-bit words; `val` is a raw `__s32`). -/
structure btf_enum where
  name_off : Nat
  val : Nat
deriving DecidableEq

/-- Reading the i-th `btf_enum` from a trailing region. -/
def btf_enum.read (data : List Nat) (i : Nat) : btf_enum :=
  { name_off := readU32 data (2 * i)
    val := readU32 data (2 * i + 1) }

/-- Raw `libbpf_sys::btf_enum64` (three 32-bit words). -/
structure btf_enum64 where
  name_off : Nat
  val_lo32 : Nat
  val_hi32 : Nat
deriving DecidableEq

/-- Reading the i-th `btf_enum64` from a trailing region. -/
def btf_enum64.read (data : List Nat) (i : Nat) : btf_enum64 :=
  { name_off := readU32 data (3 * i)
    val_lo32 := readU32 data (3 * i + 1)
    val_hi32 := readU32 data (3 * i + 2) }

/-- Raw `libbpf_sys::btf_param` (two 32-bit words). -/
structure btf_param where
  name_off : Nat
  type_ : Nat
deriving DecidableEq

/-- Reading the i-th `btf_param` from a trailing region. -/
def btf_param.read (data : List Nat) (i : Nat) : btf_param :=
  { name_off := readU32 data (2 * i)
    type_ := readU32 data (2 * i + 1) }

/-- Raw `libbpf_sys::btf_var_secinfo` (three 32-bit words). -/
structure btf_var_secinfo where
  type_ : Nat
  offset : Nat
  size : Nat
deriving DecidableEq

/-- Reading the i-th `btf_var_secinfo` from a trailing region. -/
def btf_var_secinfo.read (data : List Nat) (i : Nat) : btf_var_secinfo :=
  { type_ := readU32 data (3 * i)
    offset := readU32 data (3 * i + 1)
    size := readU32 data (3 * i + 2) }

/-- Raw `libbpf_sys::btf_var` (one 32-bit word). -/
structure btf_var where
  linkage : Nat
deriving DecidableEq

/-- Reading the single `btf_var` record of a Var's trailing region. -/
def btf_var.read (data : List Nat) : btf_var :=
  { linkage := readU32 data 0 }

/-- Raw `libbpf_sys::btf_decl_tag` (one 32-bit word holding an `__s32`). -/
structure btf_decl_tag where
  component_idx : Int
deriving DecidableEq

/-- Reading the single `btf_decl_tag` record of a DeclTag's trailing region. -/
def btf_decl_tag.read (data : List Nat) : btf_decl_tag :=
  { component_idx := toI32 (readU32 data 0) }

/-- View generated by `gen_fieldless_concrete_type!`: only the source record. -/
structure FieldlessView where
  source : BtfType

/-- The `TryFrom` impl generated by `gen_fieldless_concrete_type!` for target
kind `K`: succeed exactly on a kind-tag match, hand back `t` otherwise. -/
def fieldless_try_from (K : BtfKind) (t : BtfType) : Except BtfType FieldlessView :=
  if t.kind = K then Except.ok { source := t } else Except.error t

/-- View generated by `gen_concrete_type!`: the source record plus a reference
to the single fixed-size trailing record (the `ptr` field). -/
structure FixedView (α : Type) where
  source : BtfType
  ptr : α

/-- The `TryFrom` impl generated by `gen_concrete_type!` for target kind `K`,
whose trailing record is decoded by `read`. -/
def concrete_try_from {α : Type} (K : BtfKind) (read : List Nat → α) (t : BtfType) :
    Except BtfType (FixedView α) :=
  if t.kind = K then Except.ok { source := t, ptr := read t.data } else Except.error t

/-- View generated by `gen_collection_concrete_type!`: the source record plus
the slice of `vlen` raw trailing member records. -/
structure CollectionView (α : Type) where
  source : BtfType
  members : List α

/-- The slice built by `std::slice::from_raw_parts(base_ptr, t.vlen())`: the
`vlen` consecutive raw records that follow the header. -/
def collectionMembers {α : Type} (read : List Nat → Nat → α) (data : List Nat)
    (vlen : Nat) : List α :=
  (List.range vlen).map (read data)

/-- The `TryFrom` impl generated by `gen_collection_concrete_type!` for target
kind `K`, whose raw member records are decoded by `read`. -/
def collection_try_from {α : Type} (K : BtfKind) (read : List Nat → Nat → α)
    (t : BtfType) : Except BtfType (CollectionView α) :=
  if t.kind = K then
    Except.ok { source := t, members := collectionMembers read t.data t.vlen }
  else Except.error t

/-- Whether this type has no members (`is_empty` of
`gen_collection_members_concrete_type!`). -/
def CollectionView.is_empty {α : Type} (v : CollectionView α) : Bool :=
  v.members.isEmpty

/-- How many members this collection has (`len`). -/
def CollectionView.len {α : Type} (v : CollectionView α) : Nat :=
  v.members.length

/-- The attributes of a member (`MemberAttr`). -/
inductive MemberAttr where
  | Normal (offset : Nat)
  | BitField (size : Nat) (offset : Nat)
deriving DecidableEq

/-- Constructor `MemberAttr::normal`. -/
def MemberAttr.normal (offset : Nat) : MemberAttr :=
  MemberAttr.Normal offset

/-- Constructor `MemberAttr::bif_field`: `size: (offset >> 24) as u8`,
`offset: offset & 0x00_ff_ff_ff`. -/
def MemberAttr.bif_field (offset : Nat) : MemberAttr :=
  MemberAttr.BitField ((offset >>> 24) % 256) (offset &&& 0x00ffffff)

/-- The kind of linkage a variable or function can have (`repr(u32)`:
Static = 0, Global = 1, Extern = 2, Unknown = 3). -/
inductive Linkage where
  | Static
  | Global
  | Extern
  | Unknown
deriving DecidableEq

/-- The `TryFromPrimitive` derive for `Linkage`: succeeds exactly on the four
discriminant values 0, 1, 2, 3. -/
def Linkage.try_from_primitive (n : Nat) : Option Linkage :=
  match n with
  | 0 => some Linkage.Static
  | 1 => some Linkage.Global
  | 2 => some Linkage.Extern
  | 3 => some Linkage.Unknown
  | _ => none

/-- The kinds of ways a btf Int can be encoded (`IntEncoding`). -/
inductive IntEncoding where
  | None
  | Signed
  | Char
  | Bool
deriving DecidableEq

/-- The encoding match of `Int::try_from`:
`match (int & 0x0f_00_00_00) >> 24 with 0b1, 0b10, 0b100, _`. -/
def decodeIntEncoding (nib : Nat) : IntEncoding :=
  match nib with
  | 1 => IntEncoding.Signed
  | 2 => IntEncoding.Char
  | 4 => IntEncoding.Bool
  | _ => IntEncoding.None

/-- The `Int` concrete view (named `IntView` because `Int` is taken in Lean):
source record, decoded encoding, bit offset and bit width. -/
structure IntView where
  source : BtfType
  encoding : IntEncoding
  offset : Nat
  bits : Nat

/-- Handwritten `impl TryFrom<BtfType> for Int`: reads the packed 32-bit
trailing word and decodes `encoding`, `offset` and `bits` exactly as the
source does (`offset: ((int & 0x00_ff_00_00) >> 24) as u8`,
`bits: (int & 0x00_00_00_ff) as u8`). -/
def IntView.try_from (t : BtfType) : Except BtfType IntView :=
  if t.kind = BtfKind.Int then
    Except.ok
      { source := t
        encoding := decodeIntEncoding ((readU32 t.data 0 &&& 0x0f000000) >>> 24)
        offset := ((readU32 t.data 0 &&& 0x00ff0000) >>> 24) % 256
        bits := (readU32 t.data 0 &&& 0x000000ff) % 256 }
  else Except.error t

/-- A member of a Struct (`StructMember`). -/
structure StructMember where
  name : Option String
  ty : TypeId
  attr : MemberAttr
deriving DecidableEq

/-- A member of a Union (`UnionMember`). -/
structure UnionMember where
  name : Option String
  ty : TypeId
  attr : MemberAttr
deriving DecidableEq

/-- A member of an Enum (`EnumMember`; `value` is a signed 32-bit value). -/
structure EnumMember where
  name : Option String
  value : Int
deriving DecidableEq

/-- A member of an Enum64 (`Enum64Member`; `value` is an unsigned 64-bit
value). -/
structure Enum64Member where
  name : Option String
  value : Nat
deriving DecidableEq

/-- A parameter of a FuncProto (`FuncProtoParam`). -/
structure FuncProtoParam where
  name : Option String
  ty : TypeId
deriving DecidableEq

/-- Describes the btf var in a section (`VarSecInfo`). -/
structure VarSecInfo where
  ty : TypeId
  offset : Nat
  size : Nat
deriving DecidableEq

/-- The `TryFrom` impl for `Struct` (macro instantiated with `btf_member`). -/
def Struct.try_from : BtfType → Except BtfType (CollectionView btf_member) :=
  collection_try_from BtfKind.Struct btf_member.read

/-- The member conversion closure of the `Struct` macro invocation. -/
def Struct.c_to_rust_member (v : CollectionView btf_member) (m : btf_member) :
    StructMember :=
  { name := v.source.name_at m.name_off
    ty := m.type_
    attr :=
      if v.source.kind_flag then MemberAttr.bif_field m.offset
      else MemberAttr.normal m.offset }

/-- Bounds-checked indexed access `Struct::get`. -/
def Struct.get (v : CollectionView btf_member) (i : Nat) : Option StructMember :=
  (v.members[i]?).map (Struct.c_to_rust_member v)

/-- The member sequence produced by `Struct::iter`. -/
def Struct.iter (v : CollectionView btf_member) : List StructMember :=
  v.members.map (Struct.c_to_rust_member v)

/-- The `TryFrom` impl for `Union`. -/
def Union.try_from : BtfType → Except BtfType (CollectionView btf_member) :=
  collection_try_from BtfKind.Union btf_member.read

/-- The member conversion closure of the `Union` macro invocation. -/
def Union.c_to_rust_member (v : CollectionView btf_member) (m : btf_member) :
    UnionMember :=
  { name := v.source.name_at m.name_off
    ty := m.type_
    attr :=
      if v.source.kind_flag then MemberAttr.bif_field m.offset
      else MemberAttr.normal m.offset }

/-- Bounds-checked indexed access `Union::get`. -/
def Union.get (v : CollectionView btf_member) (i : Nat) : Option UnionMember :=
  (v.members[i]?).map (Union.c_to_rust_member v)

/-- The member sequence produced by `Union::iter`. -/
def Union.iter (v : CollectionView btf_member) : List UnionMember :=
  v.members.map (Union.c_to_rust_member v)

/-- The `TryFrom` impl for `Enum`. -/
def Enum.try_from : BtfType → Except BtfType (CollectionView btf_enum) :=
  collection_try_from BtfKind.Enum btf_enum.read

/-- The member conversion closure of the `Enum` macro invocation (`val` is an
`__s32`, read signed). -/
def Enum.c_to_rust_member (v : CollectionView btf_enum) (m : btf_enum) : EnumMember :=
  { name := v.source.name_at m.name_off
    value := toI32 m.val }

/-- Bounds-checked indexed access `Enum::get`. -/
def Enum.get (v : CollectionView btf_enum) (i : Nat) : Option EnumMember :=
  (v.members[i]?).map (Enum.c_to_rust_member v)

/-- The member sequence produced by `Enum::iter`. -/
def Enum.iter (v : CollectionView btf_enum) : List EnumMember :=
  v.members.map (Enum.c_to_rust_member v)

/-- The `TryFrom` impl for `Enum64`. -/
def Enum64.try_from : BtfType → Except BtfType (CollectionView btf_enum64) :=
  collection_try_from BtfKind.Enum64 btf_enum64.read

/-- The member conversion closure of the `Enum64` macro invocation:
`value = hi << 32 | lo` in `u64` arithmetic. -/
def Enum64.c_to_rust_member (v : CollectionView btf_enum64) (m : btf_enum64) :
    Enum64Member :=
  { name := v.source.name_at m.name_off
    value := (m.val_hi32 <<< 32) ||| m.val_lo32 }

/-- Bounds-checked indexed access `Enum64::get`. -/
def Enum64.get (v : CollectionView btf_enum64) (i : Nat) : Option Enum64Member :=
  (v.members[i]?).map (Enum64.c_to_rust_member v)

/-- The member sequence produced by `Enum64::iter`. -/
def Enum64.iter (v : CollectionView btf_enum64) : List Enum64Member :=
  v.members.map (Enum64.c_to_rust_member v)

/-- The `TryFrom` impl for `FuncProto`. -/
def FuncProto.try_from : BtfType → Except BtfType (CollectionView btf_param) :=
  collection_try_from BtfKind.FuncProto btf_param.read

/-- The member conversion closure of the `FuncProto` macro invocation. -/
def FuncProto.c_to_rust_member (v : CollectionView btf_param) (m : btf_param) :
    FuncProtoParam :=
  { name := v.source.name_at m.name_off
    ty := m.type_ }

/-- Bounds-checked indexed access `FuncProto::get`. -/
def FuncProto.get (v : CollectionView btf_param) (i : Nat) : Option FuncProtoParam :=
  (v.members[i]?).map (FuncProto.c_to_rust_member v)

/-- The member sequence produced by `FuncProto::iter`. -/
def FuncProto.iter (v : CollectionView btf_param) : List FuncProtoParam :=
  v.members.map (FuncProto.c_to_rust_member v)

/-- The `TryFrom` impl for `DataSec`. -/
def DataSec.try_from : BtfType → Except BtfType (CollectionView btf_var_secinfo) :=
  collection_try_from BtfKind.DataSec btf_var_secinfo.read

/-- The member conversion closure of the `DataSec` macro invocation. -/
def DataSec.c_to_rust_member (v : CollectionView btf_var_secinfo)
    (m : btf_var_secinfo) : VarSecInfo :=
  { ty := m.type_
    offset := m.offset
    size := m.size }

/-- Bounds-checked indexed access `DataSec::get`. -/
def DataSec.get (v : CollectionView btf_var_secinfo) (i : Nat) : Option VarSecInfo :=
  (v.members[i]?).map (DataSec.c_to_rust_member v)

/-- The member sequence produced by `DataSec::iter`. -/
def DataSec.iter (v : CollectionView btf_var_secinfo) : List VarSecInfo :=
  v.members.map (DataSec.c_to_rust_member v)

/-- The `TryFrom` impl for `Func` (fieldless). -/
def Func.try_from : BtfType → Except BtfType FieldlessView :=
  fieldless_try_from BtfKind.Func

/-- `Func::linkage`: `self.source.vlen().try_into().unwrap_or(Linkage::Unknown)`. -/
def Func.linkage (v : FieldlessView) : Linkage :=
  (Linkage.try_from_primitive v.source.vlen).getD Linkage.Unknown

/-- The `TryFrom` impl for `Fwd` (fieldless). -/
def Fwd.try_from : BtfType → Except BtfType FieldlessView :=
  fieldless_try_from BtfKind.Fwd

/-- The kinds of types that can be forward declared (`FwdKind`). -/
inductive FwdKind where
  | Struct
  | Union
deriving DecidableEq

/-- `Fwd::kind`: Union when the header's `kind_flag` is set, Struct when it
is clear. -/
def Fwd.kind (v : FieldlessView) : FwdKind :=
  if v.source.kind_flag then FwdKind.Union else FwdKind.Struct

/-- The `TryFrom` impl for `Var` (one fixed trailing record). -/
def Var.try_from : BtfType → Except BtfType (FixedView btf_var) :=
  concrete_try_from BtfKind.Var btf_var.read

/-- `Var::linkage`: `self.ptr.linkage.try_into().unwrap_or(Linkage::Unknown)`. -/
def Var.linkage (v : FixedView btf_var) : Linkage :=
  (Linkage.try_from_primitive v.ptr.linkage).getD Linkage.Unknown

/-- The `TryFrom` impl for `DeclTag` (one fixed trailing record). -/
def DeclTag.try_from : BtfType → Except BtfType (FixedView btf_decl_tag) :=
  concrete_try_from BtfKind.DeclTag btf_decl_tag.read

/-- `DeclTag::component_index`: `self.ptr.component_idx.try_into().ok()`
(`i32` to `u32`, succeeding exactly on non-negative values). -/
def DeclTag.component_index (v : FixedView btf_decl_tag) : Option Nat :=
  if 0 ≤ v.ptr.component_idx then some v.ptr.component_idx.toNat else none

/-! Concrete records used by the witness theorems below. -/

/-- Concrete Int record for the fieldless/fixed dispatch witness. -/
def tC1 : BtfType :=
  { kind := BtfKind.Int, kind_flag := false, vlen := 0, name_off := 0,
    size_or_type := 4, data := [8], name_at := fun _ => none }

/-- Concrete Int record whose packed trailing word is 0x00100008. -/
def tC2 : BtfType :=
  { kind := BtfKind.Int, kind_flag := false, vlen := 0, name_off := 0,
    size_or_type := 4, data := [0x00100008], name_at := fun _ => none }

/-- Concrete Int record whose encoding nibble is the combined value 0b0011. -/
def tC3 : BtfType :=
  { kind := BtfKind.Int, kind_flag := false, vlen := 0, name_off := 0,
    size_or_type := 4, data := [0x03000000], name_at := fun _ => none }

/-- Concrete Int record whose encoding nibble is 0b0001. -/
def tC3s : BtfType :=
  { kind := BtfKind.Int, kind_flag := false, vlen := 0, name_off := 0,
    size_or_type := 4, data := [0x01000000], name_at := fun _ => none }

/-- Concrete Struct record with `kind_flag` set and one member whose raw
offset word is 0x08000010. -/
def tC4t : BtfType :=
  { kind := BtfKind.Struct, kind_flag := true, vlen := 1, name_off := 0,
    size_or_type := 8, data := [0, 3, 0x08000010], name_at := fun _ => none }

/-- The converted view of `tC4t`. -/
def vC4t : CollectionView btf_member :=
  { source := tC4t, members := collectionMembers btf_member.read tC4t.data tC4t.vlen }

/-- Concrete Struct record with `kind_flag` clear, same raw member word. -/
def tC4f : BtfType :=
  { kind := BtfKind.Struct, kind_flag := false, vlen := 1, name_off := 0,
    size_or_type := 8, data := [0, 3, 0x08000010], name_at := fun _ => none }

/-- The converted view of `tC4f`. -/
def vC4f : CollectionView btf_member :=
  { source := tC4f, members := collectionMembers btf_member.read tC4f.data tC4f.vlen }

/-- Concrete Struct record with two members. -/
def tC5s : BtfType :=
  { kind := BtfKind.Struct, kind_flag := false, vlen := 2, name_off := 0,
    size_or_type := 8, data := [1, 2, 3, 4, 5, 6], name_at := fun _ => none }

/-- The converted view of `tC5s`. -/
def vC5s : CollectionView btf_member :=
  { source := tC5s, members := collectionMembers btf_member.read tC5s.data tC5s.vlen }

/-- Concrete Union record with no members (`vlen = 0`). -/
def tC5u : BtfType :=
  { kind := BtfKind.Union, kind_flag := false, vlen := 0, name_off := 0,
    size_or_type := 0, data := [], name_at := fun _ => none }

/-- The converted view of `tC5u`. -/
def vC5u : CollectionView btf_member :=
  { source := tC5u, members := collectionMembers btf_member.read tC5u.data tC5u.vlen }

/-- Concrete Enum record with one member. -/
def tC5e : BtfType :=
  { kind := BtfKind.Enum, kind_flag := false, vlen := 1, name_off := 0,
    size_or_type := 4, data := [0, 7], name_at := fun _ => none }

/-- The converted view of `tC5e`. -/
def vC5e : CollectionView btf_enum :=
  { source := tC5e, members := collectionMembers btf_enum.read tC5e.data tC5e.vlen }

/-- Concrete Enum64 record with one member. -/
def tC5e64 : BtfType :=
  { kind := BtfKind.Enum64, kind_flag := false, vlen := 1, name_off := 0,
    size_or_type := 8, data := [0, 1, 2], name_at := fun _ => none }

/-- The converted view of `tC5e64`. -/
def vC5e64 : CollectionView btf_enum64 :=
  { source := tC5e64,
    members := collectionMembers btf_enum64.read tC5e64.data tC5e64.vlen }

/-- Concrete FuncProto record with one parameter. -/
def tC5fp : BtfType :=
  { kind := BtfKind.FuncProto, kind_flag := false, vlen := 1, name_off := 0,
    size_or_type := 9, data := [0, 9], name_at := fun _ => none }

/-- The converted view of `tC5fp`. -/
def vC5fp : CollectionView btf_param :=
  { source := tC5fp, members := collectionMembers btf_param.read tC5fp.data tC5fp.vlen }

/-- Concrete DataSec record with one section entry. -/
def tC5ds : BtfType :=
  { kind := BtfKind.DataSec, kind_flag := false, vlen := 1, name_off := 0,
    size_or_type := 12, data := [1, 2, 3], name_at := fun _ => none }

/-- The converted view of `tC5ds`. -/
def vC5ds : CollectionView btf_var_secinfo :=
  { source := tC5ds,
    members := collectionMembers btf_var_secinfo.read tC5ds.data tC5ds.vlen }

/-- Concrete Enum64 record whose single member has `lo32 = 0xFFFFFFFF` and
`hi32 = 0x00000001`. -/
def tC6 : BtfType :=
  { kind := BtfKind.Enum64, kind_flag := false, vlen := 1, name_off := 0,
    size_or_type := 8, data := [0, 0xFFFFFFFF, 1], name_at := fun _ => none }

/-- The converted view of `tC6`. -/
def vC6 : CollectionView btf_enum64 :=
  { source := tC6, members := collectionMembers btf_enum64.read tC6.data tC6.vlen }

/-- Concrete Func record with `vlen = 0` (Static linkage). -/
def tC7f0 : BtfType :=
  { kind := BtfKind.Func, kind_flag := false, vlen := 0, name_off := 0,
    size_or_type := 1, data := [], name_at := fun _ => none }

/-- The converted view of `tC7f0`. -/
def vC7f0 : FieldlessView := { source := tC7f0 }

/-- Concrete Func record with the out-of-range `vlen = 5`. -/
def tC7f5 : BtfType :=
  { kind := BtfKind.Func, kind_flag := false, vlen := 5, name_off := 0,
    size_or_type := 1, data := [], name_at := fun _ => none }

/-- The converted view of `tC7f5`. -/
def vC7f5 : FieldlessView := { source := tC7f5 }

/-- Concrete Var record whose trailing linkage word is the out-of-range 7. -/
def tC7v : BtfType :=
  { kind := BtfKind.Var, kind_flag := false, vlen := 0, name_off := 0,
    size_or_type := 1, data := [7], name_at := fun _ => none }

/-- The converted view of `tC7v`. -/
def vC7v : FixedView btf_var := { source := tC7v, ptr := btf_var.read tC7v.data }

/-- Concrete DeclTag record with `component_idx = 5`. -/
def tC8 : BtfType :=
  { kind := BtfKind.DeclTag, kind_flag := false, vlen := 0, name_off := 0,
    size_or_type := 1, data := [5], name_at := fun _ => none }

/-- The converted view of `tC8`. -/
def vC8 : FixedView btf_decl_tag :=
  { source := tC8, ptr := btf_decl_tag.read tC8.data }

/-- Concrete Fwd record with `kind_flag` set. -/
def tC9t : BtfType :=
  { kind := BtfKind.Fwd, kind_flag := true, vlen := 0, name_off := 0,
    size_or_type := 0, data := [], name_at := fun _ => none }

/-- The converted view of `tC9t`. -/
def vC9t : FieldlessView := { source := tC9t }

/-- Concrete Fwd record with `kind_flag` clear. -/
def tC9f : BtfType :=
  { kind := BtfKind.Fwd, kind_flag := false, vlen := 0, name_off := 0,
    size_or_type := 0, data := [], name_at := fun _ => none }

/-- The converted view of `tC9f`. -/
def vC9f : FieldlessView := { source := tC9f }

/-! Helper lemmas. -/

/-- The top byte of a 32-bit word is below 256, so the `as u8` cast in
`MemberAttr::bif_field` and the bound in C4 coincide. -/
theorem aux_shiftRight24_lt_256 (w : Nat) (h : w < 2 ^ 32) : w >>> 24 < 256 := by
  have h32 : (2 : Nat) ^ 32 = 4294967296 := by norm_num
  have h24 : (2 : Nat) ^ 24 = 16777216 := by norm_num
  rw [Nat.shiftRight_eq_div_pow, h24]
  rw [h32] at h
  omega

/-- The `% 256` truncation is the identity on the top byte of a 32-bit word. -/
theorem aux_shiftRight24_mod256 (w : Nat) (h : w < 2 ^ 32) :
    (w >>> 24) % 256 = w >>> 24 :=
  Nat.mod_eq_of_lt (aux_shiftRight24_lt_256 w h)

/-- Splitting a word at bit `k` and re-assembling with a bitwise or is the
identity. -/
theorem aux_or_split (w k : Nat) : ((w >>> k) <<< k) ||| (w % 2 ^ k) = w := by
  apply Nat.eq_of_testBit_eq
  intro i
  rw [Nat.testBit_or, Nat.testBit_shiftLeft, Nat.testBit_mod_two_pow,
    Nat.testBit_shiftRight]
  by_cases h : k ≤ i
  · have hik : k + (i - k) = i := by omega
    have hnl : ¬ i < k := by omega
    simp [h, hik, hnl, ge_iff_le]
  · have hil : i < k := by omega
    simp [h, hil, ge_iff_le]

/-- A bitwise or of a left-shifted value with a value below the shift amount
is addition. -/
theorem aux_shiftLeft32_or_eq_add (hi lo : Nat) (h : lo < 2 ^ 32) :
    (hi <<< 32) ||| lo = hi * 2 ^ 32 + lo := by
  have h32 : (2 : Nat) ^ 32 = 4294967296 := by norm_num
  have hq : (hi * 2 ^ 32 + lo) >>> 32 = hi := by
    rw [Nat.shiftRight_eq_div_pow, h32]
    rw [h32] at h
    omega
  have hm : (hi * 2 ^ 32 + lo) % 2 ^ 32 = lo := by
    rw [h32]
    rw [h32] at h
    omega
  calc (hi <<< 32) ||| lo
      = (((hi * 2 ^ 32 + lo) >>> 32) <<< 32) ||| ((hi * 2 ^ 32 + lo) % 2 ^ 32) := by
        rw [hq, hm]
    _ = hi * 2 ^ 32 + lo := aux_or_split (hi * 2 ^ 32 + lo) 32

/-- A successful collection conversion keeps the source record and builds the
`vlen`-length raw member slice. -/
theorem aux_collection_ok {α : Type} (K : BtfKind) (read : List Nat → Nat → α)
    (t : BtfType) (v : CollectionView α)
    (h : collection_try_from K read t = Except.ok v) :
    v.source = t ∧ v.members = collectionMembers read t.data t.vlen := by
  unfold collection_try_from at h
  by_cases hk : t.kind = K
  · rw [if_pos hk] at h
    injection h with h2
    subst h2
    exact ⟨rfl, rfl⟩
  · rw [if_neg hk] at h
    simp at h

/-- The raw member slice has exactly `vlen` entries. -/
theorem aux_collectionMembers_length {α : Type} (read : List Nat → Nat → α)
    (data : List Nat) (vlen : Nat) :
    (collectionMembers read data vlen).length = vlen := by
  simp [collectionMembers]

/-- All of C5's access properties, generically in the collection kind and the
member conversion closure. -/
theorem aux_coll_spec {α β : Type} (K : BtfKind) (read : List Nat → Nat → α)
    (t : BtfType) (v : CollectionView α) (conv : α → β)
    (h : collection_try_from K read t = Except.ok v) :
    CollectionView.len v = t.vlen
      ∧ (v.members.map conv).length = t.vlen
      ∧ (∀ i, i < t.vlen →
          (v.members[i]?).map conv = (v.members.map conv)[i]?
            ∧ ((v.members[i]?).map conv).isSome = true)
      ∧ (∀ i, t.vlen ≤ i → (v.members[i]?).map conv = none)
      ∧ (CollectionView.is_empty v = true ↔ t.vlen = 0) := by
  obtain ⟨hs, hm⟩ := aux_collection_ok K read t v h
  have hlen : v.members.length = t.vlen := by
    rw [hm, aux_collectionMembers_length]
  refine ⟨?_, ?_, ?_, ?_, ?_⟩
  · rw [CollectionView.len, hlen]
  · rw [List.length_map, hlen]
  · intro i hi
    constructor
    · rw [List.getElem?_map]
    · have hi2 : i < v.members.length := by omega
      rw [List.getElem?_eq_getElem hi2]
      rfl
  · intro i hi
    have hi2 : v.members.length ≤ i := by omega
    rw [List.getElem?_eq_none hi2]
    rfl
  · rw [CollectionView.is_empty, List.isEmpty_iff]
    constructor
    · intro hnil
      rw [hnil] at hlen
      simpa using hlen.symm
    · intro h0
      have : v.members.length = 0 := by omega
      exact List.eq_nil_of_length_eq_zero this

/-- Out-of-range linkage codes decode to the `Unknown` sentinel. -/
theorem aux_linkage_unknown (n : Nat) (h0 : n ≠ 0) (h1 : n ≠ 1) (h2 : n ≠ 2) :
    (Linkage.try_from_primitive n).getD Linkage.Unknown = Linkage.Unknown := by
  unfold Linkage.try_from_primitive
  split <;> simp_all

/-- The default arm of the Int encoding match: every nibble other than 1, 2
and 4 decodes to `IntEncoding.None`. -/
theorem aux_decodeIntEncoding_default (n : Nat) (h1 : n ≠ 1) (h2 : n ≠ 2)
    (h4 : n ≠ 4) : decodeIntEncoding n = IntEncoding.None := by
  unfold decodeIntEncoding
  split <;> simp_all

/-! Claim theorems. -/

/-- C1: for every generic record view `t` and target kind `K`, each of the
four conversion shapes of the source (fieldless, fixed-payload, collection,
and the handwritten Int one) succeeds if and only if `t`'s kind tag equals
the target kind, a successful conversion keeps the originating view as its
`source`, and on mismatch the conversion returns `Err` carrying the original
generic view unchanged.  The conversions are total pure functions, so none
throws, aborts or has a side effect. -/
theorem c1_conversion_succeeds_iff_kind :
    ∀ (t : BtfType) (K : BtfKind) (α β : Type)
      (readf : List Nat → α) (readc : List Nat → Nat → β),
    ((∃ v, fieldless_try_from K t = Except.ok v ∧ v.source = t) ↔ t.kind = K)
      ∧ (t.kind ≠ K → fieldless_try_from K t = Except.error t)
      ∧ ((∃ v, concrete_try_from K readf t = Except.ok v ∧ v.source = t) ↔ t.kind = K)
      ∧ (t.kind ≠ K → concrete_try_from K readf t = Except.error t)
      ∧ ((∃ v, collection_try_from K readc t = Except.ok v ∧ v.source = t) ↔ t.kind = K)
      ∧ (t.kind ≠ K → collection_try_from K readc t = Except.error t)
      ∧ ((∃ v, IntView.try_from t = Except.ok v ∧ v.source = t) ↔ t.kind = BtfKind.Int)
      ∧ (t.kind ≠ BtfKind.Int → IntView.try_from t = Except.error t) := by
  intro t K α β readf readc
  refine ⟨?_, ?_, ?_, ?_, ?_, ?_, ?_, ?_⟩
  · constructor
    · rintro ⟨v, hv, -⟩
      by_cases hk : t.kind = K
      · exact hk
      · simp [fieldless_try_from, hk] at hv
    · intro hk
      exact ⟨_, by simp [fieldless_try_from, hk], rfl⟩
  · intro hk
    simp [fieldless_try_from, hk]
  · constructor
    · rintro ⟨v, hv, -⟩
      by_cases hk : t.kind = K
      · exact hk
      · simp [concrete_try_from, hk] at hv
    · intro hk
      exact ⟨{ source := t, ptr := readf t.data },
        by simp [concrete_try_from, hk], rfl⟩
  · intro hk
    simp [concrete_try_from, hk]
  · constructor
    · rintro ⟨v, hv, -⟩
      by_cases hk : t.kind = K
      · exact hk
      · simp [collection_try_from, hk] at hv
    · intro hk
      exact ⟨{ source := t, members := collectionMembers readc t.data t.vlen },
        by simp [collection_try_from, hk], rfl⟩
  · intro hk
    simp [collection_try_from, hk]
  · constructor
    · rintro ⟨v, hv, -⟩
      by_cases hk : t.kind = BtfKind.Int
      · exact hk
      · simp [IntView.try_from, hk] at hv
    · intro hk
      have hok : IntView.try_from t = Except.ok
          { source := t
            encoding := decodeIntEncoding ((readU32 t.data 0 &&& 0x0f000000) >>> 24)
            offset := ((readU32 t.data 0 &&& 0x00ff0000) >>> 24) % 256
            bits := (readU32 t.data 0 &&& 0x000000ff) % 256 } := by
        simp [IntView.try_from, hk]
      exact ⟨_, hok, rfl⟩
  · intro hk
    simp [IntView.try_from, hk]

/-- Witness for C1 at the concrete Int record `tC1`: conversion to the wrong
kind Void hands `tC1` back unchanged, and conversion to Int succeeds with
`tC1` as the view's source. -/
theorem c1_witness :
    fieldless_try_from BtfKind.Void tC1 = Except.error tC1
      ∧ (∃ v, IntView.try_from tC1 = Except.ok v ∧ v.source = tC1) := by
  have h := c1_conversion_succeeds_iff_kind tC1 BtfKind.Void Nat Nat
    (fun _ => 0) (fun _ _ => 0)
  refine ⟨h.2.1 (by decide), h.2.2.2.2.2.2.1.mpr (by decide)⟩

/-- C2 (code evaluated at the failing input): for the well-formed Int record
`tC2` whose packed trailing word is `w = 0x00100008`, the successfully
converted view has `offset = 0` and `bits = 8`, whereas the claim (and the
BTF format, `BTF_INT_OFFSET(VAL) = ((VAL) & 0x00ff0000) >> 16`) expects
`offset = (w >> 16) & 0xff = 0x10`: the source masks bits 16 to 23 with
`0x00_ff_00_00` but then shifts by 24 instead of 16, so the decoded offset
is always zero. -/
theorem c2_int_offset_decode_at_failing_input :
    (IntView.try_from tC2).toOption.map (fun v => (v.offset, v.bits))
        = some (0, 8)
      ∧ (0 : Nat) ≠ 0x10 := by
  exact ⟨rfl, by decide⟩

/-- C3 counterexample: the Int record `tC3` has the combined encoding nibble
`0b0011` (bit0 and bit1 both set); the claim says it decodes to Signed, but
the code's exact-value match decodes it to None. -/
theorem c3_combined_nibble_counterexample :
    (IntView.try_from tC3).toOption.map (fun v => v.encoding)
        = some IntEncoding.None
      ∧ IntEncoding.None ≠ IntEncoding.Signed := by
  exact ⟨rfl, by decide⟩

/-- C3 (amended): the encoding is decoded from the flag nibble in bits 24 to
27 of the trailing word by exact value match, not by priority: nibble exactly
0b0001 decodes to Signed, exactly 0b0010 to Char, exactly 0b0100 to Bool, and
every other nibble (including combined ones such as 0b0011) to None. -/
theorem c3_int_encoding_exact_match :
    ∀ (t : BtfType) (v : IntView), IntView.try_from t = Except.ok v →
      ((readU32 t.data 0 &&& 0x0f000000) >>> 24 = 0b1 →
          v.encoding = IntEncoding.Signed)
        ∧ ((readU32 t.data 0 &&& 0x0f000000) >>> 24 = 0b10 →
          v.encoding = IntEncoding.Char)
        ∧ ((readU32 t.data 0 &&& 0x0f000000) >>> 24 = 0b100 →
          v.encoding = IntEncoding.Bool)
        ∧ ((readU32 t.data 0 &&& 0x0f000000) >>> 24 ≠ 0b1 →
          (readU32 t.data 0 &&& 0x0f000000) >>> 24 ≠ 0b10 →
          (readU32 t.data 0 &&& 0x0f000000) >>> 24 ≠ 0b100 →
          v.encoding = IntEncoding.None) := by
  intro t v h
  unfold IntView.try_from at h
  by_cases hk : t.kind = BtfKind.Int
  · rw [if_pos hk] at h
    injection h with h2
    subst h2
    refine ⟨?_, ?_, ?_, ?_⟩
    · intro hn
      simp only [hn]
      rfl
    · intro hn
      simp only [hn]
      rfl
    · intro hn
      simp only [hn]
      rfl
    · intro h1 h2 h4
      exact aux_decodeIntEncoding_default _ h1 h2 h4
  · rw [if_neg hk] at h
    simp at h

/-- Witness for C3's amended theorem at the concrete record `tC3s` (nibble
0b0001, decoding to Signed) and at `tC3` (combined nibble 0b0011, decoding to
None). -/
theorem c3_witness :
    (∃ v, IntView.try_from tC3s = Except.ok v ∧ v.encoding = IntEncoding.Signed)
      ∧ (∃ v, IntView.try_from tC3 = Except.ok v
          ∧ v.encoding = IntEncoding.None) := by
  constructor
  · refine ⟨_, rfl, ?_⟩
    exact (c3_int_encoding_exact_match tC3s _ rfl).1 (by decide)
  · refine ⟨_, rfl, ?_⟩
    exact (c3_int_encoding_exact_match tC3 _ rfl).2.2.2 (by decide) (by decide)
      (by decide)

/-- C4: for every Struct or Union member with raw 32-bit offset word `w`, the
decoded member attribute depends only on the enclosing record's `kind_flag`:
when set, the attribute is `BitField` with `size = w >>> 24` (the top byte)
and `offset = w &&& 0x00ffffff` (the low 24 bits); when clear it is `Normal`
with the full word preserved.  In particular `w = 0x08000010` yields
`BitField 8 0x10` under a set flag and `Normal 0x08000010` under a clear
one. -/
theorem c4_member_attr_kind_flag :
    ∀ (v : CollectionView btf_member) (m : btf_member), m.offset < 2 ^ 32 →
      ((Struct.c_to_rust_member v m).attr =
          if v.source.kind_flag then
            MemberAttr.BitField (m.offset >>> 24) (m.offset &&& 0x00ffffff)
          else MemberAttr.Normal m.offset)
        ∧ ((Union.c_to_rust_member v m).attr =
          if v.source.kind_flag then
            MemberAttr.BitField (m.offset >>> 24) (m.offset &&& 0x00ffffff)
          else MemberAttr.Normal m.offset)
        ∧ (m.offset = 0x08000010 → v.source.kind_flag = true →
          (Struct.c_to_rust_member v m).attr = MemberAttr.BitField 8 0x10)
        ∧ (m.offset = 0x08000010 → v.source.kind_flag = false →
          (Struct.c_to_rust_member v m).attr = MemberAttr.Normal 0x08000010) := by
  intro v m hw
  have hmod := aux_shiftRight24_mod256 m.offset hw
  have hs : (Struct.c_to_rust_member v m).attr =
      if v.source.kind_flag then
        MemberAttr.BitField (m.offset >>> 24) (m.offset &&& 0x00ffffff)
      else MemberAttr.Normal m.offset := by
    cases hkf : v.source.kind_flag with
    | true =>
      simp [Struct.c_to_rust_member, MemberAttr.bif_field, hkf, hmod]
    | false =>
      simp [Struct.c_to_rust_member, MemberAttr.normal, hkf]
  have hu : (Union.c_to_rust_member v m).attr =
      if v.source.kind_flag then
        MemberAttr.BitField (m.offset >>> 24) (m.offset &&& 0x00ffffff)
      else MemberAttr.Normal m.offset := by
    cases hkf : v.source.kind_flag with
    | true =>
      simp [Union.c_to_rust_member, MemberAttr.bif_field, hkf, hmod]
    | false =>
      simp [Union.c_to_rust_member, MemberAttr.normal, hkf]
  refine ⟨hs, hu, ?_, ?_⟩
  · intro hm hkf
    rw [hs, hkf, if_pos rfl, hm]
    decide
  · intro hm hkf
    rw [hs, hkf, if_neg (by simp), hm]

/-- Witness for C4 at the concrete views `vC4t` (flag set) and `vC4f` (flag
clear), both holding the raw member word 0x08000010. -/
theorem c4_witness :
    (Struct.c_to_rust_member vC4t (btf_member.read tC4t.data 0)).attr
        = MemberAttr.BitField 8 0x10
      ∧ (Struct.c_to_rust_member vC4f (btf_member.read tC4f.data 0)).attr
        = MemberAttr.Normal 0x08000010 := by
  constructor
  · exact (c4_member_attr_kind_flag vC4t (btf_member.read tC4t.data 0)
      (by decide)).2.2.1 (by decide) (by decide)
  · exact (c4_member_attr_kind_flag vC4f (btf_member.read tC4f.data 0)
      (by decide)).2.2.2 (by decide) (by decide)

/-- C5: for every successfully converted collection view (Struct, Union,
Enum, Enum64, FuncProto, DataSec), `len()` equals the header count `vlen`,
the iterator yields exactly `vlen` decoded members, `get i` for `i < vlen`
is `Some` of the iterator's i-th item, `get i` for `i ≥ vlen` is `None`, and
`is_empty()` holds exactly when `vlen = 0`. -/
theorem c5_collection_access :
    (∀ t v, Struct.try_from t = Except.ok v →
        CollectionView.len v = t.vlen
          ∧ (Struct.iter v).length = t.vlen
          ∧ (∀ i, i < t.vlen →
              Struct.get v i = (Struct.iter v)[i]? ∧ (Struct.get v i).isSome = true)
          ∧ (∀ i, t.vlen ≤ i → Struct.get v i = none)
          ∧ (CollectionView.is_empty v = true ↔ t.vlen = 0))
      ∧ (∀ t v, Union.try_from t = Except.ok v →
        CollectionView.len v = t.vlen
          ∧ (Union.iter v).length = t.vlen
          ∧ (∀ i, i < t.vlen →
              Union.get v i = (Union.iter v)[i]? ∧ (Union.get v i).isSome = true)
          ∧ (∀ i, t.vlen ≤ i → Union.get v i = none)
          ∧ (CollectionView.is_empty v = true ↔ t.vlen = 0))
      ∧ (∀ t v, Enum.try_from t = Except.ok v →
        CollectionView.len v = t.vlen
          ∧ (Enum.iter v).length = t.vlen
          ∧ (∀ i, i < t.vlen →
              Enum.get v i = (Enum.iter v)[i]? ∧ (Enum.get v i).isSome = true)
          ∧ (∀ i, t.vlen ≤ i → Enum.get v i = none)
          ∧ (CollectionView.is_empty v = true ↔ t.vlen = 0))
      ∧ (∀ t v, Enum64.try_from t = Except.ok v →
        CollectionView.len v = t.vlen
          ∧ (Enum64.iter v).length = t.vlen
          ∧ (∀ i, i < t.vlen →
              Enum64.get v i = (Enum64.iter v)[i]? ∧ (Enum64.get v i).isSome = true)
          ∧ (∀ i, t.vlen ≤ i → Enum64.get v i = none)
          ∧ (CollectionView.is_empty v = true ↔ t.vlen = 0))
      ∧ (∀ t v, FuncProto.try_from t = Except.ok v →
        CollectionView.len v = t.vlen
          ∧ (FuncProto.iter v).length = t.vlen
          ∧ (∀ i, i < t.vlen →
              FuncProto.get v i = (FuncProto.iter v)[i]?
                ∧ (FuncProto.get v i).isSome = true)
          ∧ (∀ i, t.vlen ≤ i → FuncProto.get v i = none)
          ∧ (CollectionView.is_empty v = true ↔ t.vlen = 0))
      ∧ (∀ t v, DataSec.try_from t = Except.ok v →
        CollectionView.len v = t.vlen
          ∧ (DataSec.iter v).length = t.vlen
          ∧ (∀ i, i < t.vlen →
              DataSec.get v i = (DataSec.iter v)[i]? ∧ (DataSec.get v i).isSome = true)
          ∧ (∀ i, t.vlen ≤ i → DataSec.get v i = none)
          ∧ (CollectionView.is_empty v = true ↔ t.vlen = 0)) := by
  refine ⟨?_, ?_, ?_, ?_, ?_, ?_⟩
  · intro t v h
    exact aux_coll_spec BtfKind.Struct btf_member.read t v
      (Struct.c_to_rust_member v) h
  · intro t v h
    exact aux_coll_spec BtfKind.Union btf_member.read t v
      (Union.c_to_rust_member v) h
  · intro t v h
    exact aux_coll_spec BtfKind.Enum btf_enum.read t v
      (Enum.c_to_rust_member v) h
  · intro t v h
    exact aux_coll_spec BtfKind.Enum64 btf_enum64.read t v
      (Enum64.c_to_rust_member v) h
  · intro t v h
    exact aux_coll_spec BtfKind.FuncProto btf_param.read t v
      (FuncProto.c_to_rust_member v) h
  · intro t v h
    exact aux_coll_spec BtfKind.DataSec btf_var_secinfo.read t v
      (DataSec.c_to_rust_member v) h

/-- Witness for C5 at one concrete record per collection kind, including the
empty Union (`vlen = 0`). -/
theorem c5_witness :
    (CollectionView.len vC5s = 2
        ∧ Struct.get vC5s 0 = (Struct.iter vC5s)[0]?
        ∧ (Struct.get vC5s 0).isSome = true
        ∧ Struct.get vC5s 2 = none)
      ∧ (CollectionView.is_empty vC5u = true ∧ Union.get vC5u 0 = none)
      ∧ (CollectionView.len vC5e = 1 ∧ Enum.get vC5e 1 = none)
      ∧ (CollectionView.len vC5e64 = 1
          ∧ Enum64.get vC5e64 0 = (Enum64.iter vC5e64)[0]?)
      ∧ ((FuncProto.iter vC5fp).length = 1 ∧ FuncProto.get vC5fp 1 = none)
      ∧ (CollectionView.len vC5ds = 1
          ∧ (CollectionView.is_empty vC5ds = true ↔ (1 : Nat) = 0)) := by
  have hs := c5_collection_access.1 tC5s vC5s rfl
  have hu := c5_collection_access.2.1 tC5u vC5u rfl
  have he := c5_collection_access.2.2.1 tC5e vC5e rfl
  have he64 := c5_collection_access.2.2.2.1 tC5e64 vC5e64 rfl
  have hfp := c5_collection_access.2.2.2.2.1 tC5fp vC5fp rfl
  have hds := c5_collection_access.2.2.2.2.2 tC5ds vC5ds rfl
  refine ⟨⟨hs.1, (hs.2.2.1 0 (by decide)).1, (hs.2.2.1 0 (by decide)).2,
      hs.2.2.2.1 2 (by decide)⟩,
    ⟨hu.2.2.2.2.mpr rfl, hu.2.2.2.1 0 (by decide)⟩,
    ⟨he.1, he.2.2.2.1 1 (by decide)⟩,
    ⟨he64.1, (he64.2.2.1 0 (by decide)).1⟩,
    ⟨hfp.2.1, hfp.2.2.2.1 1 (by decide)⟩,
    ⟨hds.1, hds.2.2.2.2⟩⟩

/-- C6: for every Enum64 member with raw halves `hi32` and `lo32`, the
decoded 64-bit value is `hi32 <<< 32 ||| lo32`, which for `lo32 < 2^32`
(always true of a 32-bit half) equals `hi32 * 2^32 + lo32`. -/
theorem c6_enum64_value :
    ∀ (t : BtfType) (v : CollectionView btf_enum64) (i : Nat) (m : btf_enum64),
      Enum64.try_from t = Except.ok v → v.members[i]? = some m →
      (Enum64.get v i).map Enum64Member.value
          = some ((m.val_hi32 <<< 32) ||| m.val_lo32)
        ∧ (m.val_lo32 < 2 ^ 32 →
          (Enum64.get v i).map Enum64Member.value
            = some (m.val_hi32 * 2 ^ 32 + m.val_lo32)) := by
  intro t v i m ht hm
  have hget : Enum64.get v i = some (Enum64.c_to_rust_member v m) := by
    rw [Enum64.get, hm]
    rfl
  constructor
  · rw [hget]
    rfl
  · intro hlo
    rw [hget]
    show some ((m.val_hi32 <<< 32) ||| m.val_lo32)
        = some (m.val_hi32 * 2 ^ 32 + m.val_lo32)
    rw [aux_shiftLeft32_or_eq_add m.val_hi32 m.val_lo32 hlo]

/-- Witness for C6 at the concrete record `tC6` (`hi32 = 1`,
`lo32 = 0xFFFFFFFF`): the decoded value is 0x1FFFFFFFF. -/
theorem c6_witness :
    (Enum64.get vC6 0).map Enum64Member.value = some 0x1FFFFFFFF := by
  have h := (c6_enum64_value tC6 vC6 0 (btf_enum64.read tC6.data 0) rfl rfl).2
    (by decide)
  rw [h]
  decide

/-- C7: linkage decoding is total and never fails.  For a Func view,
`linkage()` maps `vlen` 0 to Static, 1 to Global, 2 to Extern and every other
value to Unknown; for a Var view it applies the same mapping to the dedicated
trailing linkage field. -/
theorem c7_linkage_total :
    (∀ t v, Func.try_from t = Except.ok v →
        (v.source.vlen = 0 → Func.linkage v = Linkage.Static)
          ∧ (v.source.vlen = 1 → Func.linkage v = Linkage.Global)
          ∧ (v.source.vlen = 2 → Func.linkage v = Linkage.Extern)
          ∧ (v.source.vlen ≠ 0 → v.source.vlen ≠ 1 → v.source.vlen ≠ 2 →
            Func.linkage v = Linkage.Unknown))
      ∧ (∀ t v, Var.try_from t = Except.ok v →
        (v.ptr.linkage = 0 → Var.linkage v = Linkage.Static)
          ∧ (v.ptr.linkage = 1 → Var.linkage v = Linkage.Global)
          ∧ (v.ptr.linkage = 2 → Var.linkage v = Linkage.Extern)
          ∧ (v.ptr.linkage ≠ 0 → v.ptr.linkage ≠ 1 → v.ptr.linkage ≠ 2 →
            Var.linkage v = Linkage.Unknown)) := by
  constructor
  · intro t v h
    refine ⟨?_, ?_, ?_, ?_⟩
    · intro h0
      rw [Func.linkage, h0]
      rfl
    · intro h1
      rw [Func.linkage, h1]
      rfl
    · intro h2
      rw [Func.linkage, h2]
      rfl
    · intro h0 h1 h2
      exact aux_linkage_unknown v.source.vlen h0 h1 h2
  · intro t v h
    refine ⟨?_, ?_, ?_, ?_⟩
    · intro h0
      rw [Var.linkage, h0]
      rfl
    · intro h1
      rw [Var.linkage, h1]
      rfl
    · intro h2
      rw [Var.linkage, h2]
      rfl
    · intro h0 h1 h2
      exact aux_linkage_unknown v.ptr.linkage h0 h1 h2

/-- Witness for C7 at the concrete records `tC7f0` (Func, `vlen = 0`),
`tC7f5` (Func, out-of-range `vlen = 5`) and `tC7v` (Var, out-of-range
trailing linkage word 7). -/
theorem c7_witness :
    Func.linkage vC7f0 = Linkage.Static
      ∧ Func.linkage vC7f5 = Linkage.Unknown
      ∧ Var.linkage vC7v = Linkage.Unknown := by
  have hf0 := c7_linkage_total.1 tC7f0 vC7f0 rfl
  have hf5 := c7_linkage_total.1 tC7f5 vC7f5 rfl
  have hv := c7_linkage_total.2 tC7v vC7v rfl
  exact ⟨hf0.1 rfl, hf5.2.2.2 (by decide) (by decide) (by decide),
    hv.2.2.2 (by decide) (by decide) (by decide)⟩

/-- C8: for every DeclTag view, `component_index()` returns `Some` exactly
when the raw trailing `component_idx` value is non-negative, converting it
losslessly to an unsigned index, and returns `None` otherwise. -/
theorem c8_decl_tag_component_index :
    ∀ t v, DeclTag.try_from t = Except.ok v →
      ((∃ n, DeclTag.component_index v = some n) ↔ 0 ≤ v.ptr.component_idx)
        ∧ (∀ n, DeclTag.component_index v = some n →
          (n : Int) = v.ptr.component_idx)
        ∧ (¬ 0 ≤ v.ptr.component_idx → DeclTag.component_index v = none) := by
  intro t v h
  refine ⟨⟨?_, ?_⟩, ?_, ?_⟩
  · rintro ⟨n, hn⟩
    by_cases hc : 0 ≤ v.ptr.component_idx
    · exact hc
    · rw [DeclTag.component_index, if_neg hc] at hn
      cases hn
  · intro hc
    exact ⟨v.ptr.component_idx.toNat, by rw [DeclTag.component_index, if_pos hc]⟩
  · intro n hn
    by_cases hc : 0 ≤ v.ptr.component_idx
    · rw [DeclTag.component_index, if_pos hc] at hn
      injection hn with hn2
      rw [← hn2]
      exact Int.toNat_of_nonneg hc
    · rw [DeclTag.component_index, if_neg hc] at hn
      cases hn
  · intro hc
    rw [DeclTag.component_index, if_neg hc]

/-- Witness for C8 at the concrete DeclTag record `tC8`
(`component_idx = 5`). -/
theorem c8_witness :
    (∃ n, DeclTag.component_index vC8 = some n)
      ∧ (5 : Int) = vC8.ptr.component_idx := by
  have h := c8_decl_tag_component_index tC8 vC8 rfl
  exact ⟨h.1.mpr (by decide), h.2.1 5 (by decide)⟩

/-- C9: for every Fwd view, `kind()` returns Union when the header's
`kind_flag` is set and Struct when it is clear. -/
theorem c9_fwd_kind :
    ∀ t v, Fwd.try_from t = Except.ok v →
      (v.source.kind_flag = true → Fwd.kind v = FwdKind.Union)
        ∧ (v.source.kind_flag = false → Fwd.kind v = FwdKind.Struct) := by
  intro t v h
  constructor
  · intro hf
    rw [Fwd.kind, hf, if_pos rfl]
  · intro hf
    rw [Fwd.kind, hf, if_neg (by simp)]

/-- Witness for C9 at the concrete Fwd records `tC9t` (flag set) and `tC9f`
(flag clear). -/
theorem c9_witness :
    Fwd.kind vC9t = FwdKind.Union ∧ Fwd.kind vC9f = FwdKind.Struct := by
  exact ⟨(c9_fwd_kind tC9t vC9t rfl).1 rfl, (c9_fwd_kind tC9f vC9f rfl).2 rfl⟩

/-- C10: the bitfield attribute decoder is lossless.  For every 32-bit raw
member-offset word `w`, `MemberAttr::bif_field` yields
`BitField (w >>> 24) (w &&& 0x00ffffff)` (the size/offset fields partition
the word), the shifted or of the two fields reconstructs `w` exactly, and
the decoder is injective on 32-bit raw words. -/
theorem c10_bitfield_lossless :
    ∀ w, w < 2 ^ 32 →
      MemberAttr.bif_field w = MemberAttr.BitField (w >>> 24) (w &&& 0x00ffffff)
        ∧ ((w >>> 24) <<< 24) ||| (w &&& 0x00ffffff) = w
        ∧ (∀ x, x < 2 ^ 32 → MemberAttr.bif_field w = MemberAttr.bif_field x →
          w = x) := by
  intro w hw
  have hmask : (0x00ffffff : Nat) = 2 ^ 24 - 1 := by norm_num
  have hrec : ∀ y : Nat, ((y >>> 24) <<< 24) ||| (y &&& 0x00ffffff) = y := by
    intro y
    rw [hmask, Nat.and_pow_two_sub_one_eq_mod]
    exact aux_or_split y 24
  refine ⟨?_, hrec w, ?_⟩
  · rw [MemberAttr.bif_field, aux_shiftRight24_mod256 w hw]
  · intro x hx hbif
    rw [MemberAttr.bif_field, MemberAttr.bif_field] at hbif
    injection hbif with hsize hoff
    rw [aux_shiftRight24_mod256 w hw, aux_shiftRight24_mod256 x hx] at hsize
    calc w = ((w >>> 24) <<< 24) ||| (w &&& 0x00ffffff) := (hrec w).symm
      _ = ((x >>> 24) <<< 24) ||| (x &&& 0x00ffffff) := by rw [hsize, hoff]
      _ = x := hrec x

/-- Witness for C10 at the concrete raw word 0x08000010: the decode is
`BitField 8 0x10` and re-assembling the two fields gives the word back. -/
theorem c10_witness :
    MemberAttr.bif_field 0x08000010 = MemberAttr.BitField 8 0x10
      ∧ ((8 : Nat) <<< 24) ||| 0x10 = 0x08000010 := by
  have h := c10_bitfield_lossless 0x08000010 (by norm_num)
  constructor
  · rw [h.1]
    decide
  · have h2 := h.2.1
    rw [show (0x08000010 : Nat) >>> 24 = 8 from by decide,
      show (0x08000010 : Nat) &&& 0x00ffffff = 0x10 from by decide] at h2
    exact h2
